import Mathlib

/-!
Verification of the core of the pubchem-mcp-server repository: the shared
gateway client (`src/services/pubchem/pubchemApiClient.ts`) and the
cross-reference aggregation engine
(`src/mcp-server/tools/fetchCompoundXrefs/logic.ts`), together with the bulk
fan-out pattern of `src/mcp-server/tools/fetchCompoundProperties/logic.ts` and
the aggregator's input schema.

Each TypeScript function is embedded shallowly as an executable Lean
definition; the theorems at the end of the file settle the specification
claims against these definitions.
-/

set_option autoImplicit false

namespace PubChem

/-! ## Error taxonomy

From `src/types-global/errors.ts` as used by the client and tool logic:
the `BaseErrorCode` members referenced by the core are embedded as an
inductive, and `McpError` as a structure carrying the code, the message and
the diagnostic data attached at the throw site. -/

/-- Error codes of the `BaseErrorCode` enum referenced by the core
(`INVALID_INPUT`, `NOT_FOUND`, `METHOD_NOT_ALLOWED`, `SERVICE_UNAVAILABLE`,
`GATEWAY_TIMEOUT`, `EXTERNAL_SERVICE_ERROR`). -/
inductive BaseErrorCode where
  | INVALID_INPUT
  | NOT_FOUND
  | METHOD_NOT_ALLOWED
  | SERVICE_UNAVAILABLE
  | GATEWAY_TIMEOUT
  | EXTERNAL_SERVICE_ERROR
deriving DecidableEq, Repr

/-- Structured error thrown by the core (`new McpError(code, message, data)`).
The diagnostic data fields used by the client are the HTTP status code and a
raw body excerpt; sites that attach other context leave them `none`. -/
structure McpError where
  code : BaseErrorCode
  message : String
  httpStatusCode : Option Nat := none
  details : Option String := none
deriving DecidableEq, Repr

/-! ## Gateway client (`PubChemApiClient`)

The client executes one outbound GET. We model a completed HTTP exchange by
the `HttpResponse` the network yields; `executeRequest` then either returns
it (2xx) or throws the mapped `McpError`, exactly as the TypeScript does.
JSON parsing (`response.json()`) is kept abstract: `get` is parametric in the
parser, and a parse failure is a distinct (non-`McpError`) thrown outcome,
mirroring the `SyntaxError` a real `response.json()` raises. -/

/-- Fixed upstream base URL (`PUBCHEM_API_BASE_URL`). -/
def PUBCHEM_API_BASE_URL : String := "https://pubchem.ncbi.nlm.nih.gov/rest/pug"

/-- A completed upstream HTTP response: status, status text, the body as text
(`response.text()`), the body as raw bytes (`response.arrayBuffer()`), and
the optional `pubchem-pug-status-message` header. -/
structure HttpResponse where
  status : Nat
  statusText : String := ""
  bodyText : String := ""
  bodyBytes : List Nat := []
  pubchemStatusHeader : Option String := none
deriving DecidableEq, Repr

/-- The fetch-API `response.ok` flag: status in the inclusive range 200-299. -/
def HttpResponse.ok (r : HttpResponse) : Bool :=
  decide (200 ≤ r.status) && decide (r.status ≤ 299)

/-- URL resolution in `executeRequest`:
`path.startsWith("http") ? path : PUBCHEM_API_BASE_URL + path`. -/
def resolveUrl (path : String) : String :=
  if path.startsWith "http" then path else PUBCHEM_API_BASE_URL ++ path

/-- The `switch (response.status)` of `PubChemApiClient.executeRequest`,
mapping the HTTP status of a non-ok response to a `BaseErrorCode`. -/
def statusToErrorCode (status : Nat) : BaseErrorCode :=
  match status with
  | 400 => BaseErrorCode.INVALID_INPUT
  | 404 => BaseErrorCode.NOT_FOUND
  | 405 => BaseErrorCode.METHOD_NOT_ALLOWED
  | 503 => BaseErrorCode.SERVICE_UNAVAILABLE
  | 504 => BaseErrorCode.GATEWAY_TIMEOUT
  | _ => BaseErrorCode.EXTERNAL_SERVICE_ERROR

/-- The `McpError` built by `executeRequest` for a non-ok response: mapped
code, a message carrying the best-effort `pubchem-pug-status-message` header
(placeholder `"No status message"` when absent), the raw status code and the
body text as diagnostic detail. -/
def upstreamError (r : HttpResponse) : McpError :=
  { code := statusToErrorCode r.status
    message := "PubChem API Error: " ++ r.pubchemStatusHeader.getD "No status message"
    httpStatusCode := some r.status
    details := some r.bodyText }

/-- The method `PubChemApiClient.executeRequest`, applied to the response the network
yielded: return the response when `response.ok`, otherwise throw the mapped
`McpError`. -/
def executeRequest (r : HttpResponse) : Except McpError HttpResponse :=
  if r.ok then Except.ok r else Except.error (upstreamError r)

/-- Outcomes thrown out of `PubChemApiClient.get`: either the `McpError` from
`executeRequest`, or the parse failure `response.json()` raises on a
malformed body. -/
inductive ClientError where
  | api (e : McpError)
  | jsonParse
deriving DecidableEq, Repr

/-- The method `PubChemApiClient.get` (the spec's `fetchJSON`): run `executeRequest`;
on status 204 return `null` (here `none`) without touching the body;
otherwise parse the body with the (abstract) JSON parser. -/
def PubChemApiClient.get {α : Type} (parseJson : String → Option α)
    (r : HttpResponse) : Except ClientError (Option α) :=
  match executeRequest r with
  | Except.error e => Except.error (ClientError.api e)
  | Except.ok resp =>
    if resp.status = 204 then Except.ok none
    else
      match parseJson resp.bodyText with
      | some v => Except.ok (some v)
      | none => Except.error ClientError.jsonParse

/-- The method `PubChemApiClient.getBlob` (the spec's `fetchBinary`): run
`executeRequest`; on success return the raw body bytes
(`response.arrayBuffer()`), with no 204 special case. -/
def PubChemApiClient.getBlob (r : HttpResponse) : Except McpError (List Nat) :=
  match executeRequest r with
  | Except.error e => Except.error e
  | Except.ok resp => Except.ok resp.bodyBytes

/-! ### Effect trace of `executeRequest`

`executeRequest` performs, in program order: `await this.limiter.removeTokens(1)`,
then the network call `fetchWithTimeout(url, ...)`. The trace below records
those suspension points in the order the code awaits them. -/

/-- Observable effects of one gateway call. -/
inductive GatewayEvent where
  | acquirePermit
  | networkRequest (url : String)
deriving DecidableEq, Repr

/-- Effect trace of `PubChemApiClient.executeRequest` in program order: the
rate-limiter permit is awaited first, then the network request to the
resolved URL is issued. Both `get` and `getBlob` delegate to
`executeRequest`, so this is the trace of every call through the client. -/
def executeRequestTrace (path : String) : List GatewayEvent :=
  [GatewayEvent.acquirePermit, GatewayEvent.networkRequest (resolveUrl path)]

/-! ## Cross-reference aggregator
(`src/mcp-server/tools/fetchCompoundXrefs/logic.ts`, the current version that
fetches each cross-reference type individually). -/

/-- The `PubchemXrefTypesEnum` members. -/
inductive XrefType where
  | RegistryID
  | RN
  | PubMedID
  | PatentID
  | GeneID
  | ProteinGI
  | TaxonomyID
deriving DecidableEq, Repr, Fintype

/-- The string tag of an `XrefType`, as it appears in the Zod enum, in the
upstream path and as the key looked up in each `Information` record. -/
def xrefTypeName : XrefType → String
  | XrefType.RegistryID => "RegistryID"
  | XrefType.RN => "RN"
  | XrefType.PubMedID => "PubMedID"
  | XrefType.PatentID => "PatentID"
  | XrefType.GeneID => "GeneID"
  | XrefType.ProteinGI => "ProteinGI"
  | XrefType.TaxonomyID => "TaxonomyID"

/-- Parsing a raw string against `PubchemXrefTypesEnum` (Zod enum
validation): only the seven fixed tags are accepted. -/
def parseXrefTypeTag (s : String) : Option XrefType :=
  if s = "RegistryID" then some XrefType.RegistryID
  else if s = "RN" then some XrefType.RN
  else if s = "PubMedID" then some XrefType.PubMedID
  else if s = "PatentID" then some XrefType.PatentID
  else if s = "GeneID" then some XrefType.GeneID
  else if s = "ProteinGI" then some XrefType.ProteinGI
  else if s = "TaxonomyID" then some XrefType.TaxonomyID
  else none

/-- One cross-reference identifier (`string | number` in the source). -/
inductive XrefId where
  | str (s : String)
  | num (n : Int)
deriving DecidableEq, Repr

/-- One dynamically-typed field of an `Information` record: either an array
of identifiers (the only shape the logic consumes) or any non-array value. -/
inductive JsonField where
  | arr (ids : List XrefId)
  | nonArray
deriving DecidableEq, Repr

/-- One record of `response.InformationList.Information`: a loosely-typed
object, embedded as an association list from field name to field value. -/
def InfoRecord : Type := List (String × JsonField)

instance : DecidableEq InfoRecord := by unfold InfoRecord; exact inferInstance

/-- A parsed upstream response for one cross-reference type. `none` covers a
`null` response (204) and a response missing `InformationList.Information`
(both skipped by the `response?.InformationList?.Information` guard). -/
def XrefsResponse : Type := Option (List InfoRecord)

/-- Temporary item of the flat `allXrefs` list (`TempXrefItem`). -/
structure TempXrefItem where
  type : XrefType
  id : XrefId
deriving DecidableEq, Repr

/-- The extraction of one `Information` record for one requested type:
`if (info[xrefType] && Array.isArray(info[xrefType]))` iterate its ids
(an absent field, a non-array field, or an empty array contribute nothing). -/
def extractIds (t : XrefType) (info : InfoRecord) : List XrefId :=
  match List.lookup (xrefTypeName t) info with
  | some (JsonField.arr ids) => ids
  | _ => []

/-- One iteration of the aggregation loop: the upstream call for one type
(`pubChemApiClient.get` on `/compound/cid/{cid}/xrefs/{type}/JSON`), where a
thrown error is caught and contributes nothing, and a successful response is
flattened into `{type, id}` items in record-then-id order. The upstream
outcome is abstracted as an oracle `upstream : XrefType → Except ε
XrefsResponse`; the catch block absorbs any error value. -/
def fetchTypeXrefs {ε : Type} (upstream : XrefType → Except ε XrefsResponse)
    (t : XrefType) : List TempXrefItem :=
  match upstream t with
  | Except.error _ => []
  | Except.ok none => []
  | Except.ok (some infos) =>
    infos.flatMap (fun info => (extractIds t info).map (fun i => ⟨t, i⟩))

/-- The flat `allXrefs` list after the per-type loop: each requested type, in
request order, contributes its (possibly empty) batch of items. -/
def collectAllXrefs {ε : Type} (upstream : XrefType → Except ε XrefsResponse)
    (xrefTypes : List XrefType) : List TempXrefItem :=
  xrefTypes.flatMap (fetchTypeXrefs upstream)

/-- The warning events emitted by the loop's catch block: one per requested
type whose upstream call threw, in request order. -/
def xrefsWarnings {ε : Type} (upstream : XrefType → Except ε XrefsResponse)
    (xrefTypes : List XrefType) : List XrefType :=
  xrefTypes.filter (fun t =>
    match upstream t with
    | Except.error _ => true
    | Except.ok _ => false)

/-- One step of the grouping `reduce`: push the id onto the existing group
for its type, or append a fresh singleton group (JavaScript objects with
non-numeric string keys preserve insertion order, which `Object.entries`
then reproduces). -/
def insertXref (acc : List (XrefType × List XrefId)) (item : TempXrefItem) :
    List (XrefType × List XrefId) :=
  if acc.any (fun p => p.1 = item.type) then
    acc.map (fun p => if p.1 = item.type then (p.1, p.2 ++ [item.id]) else p)
  else acc ++ [(item.type, [item.id])]

/-- The grouping of the flat list (`allXrefs.reduce(...)` followed by
`Object.entries`): an insertion-ordered association from type to its ids. -/
def groupXrefs (items : List TempXrefItem) : List (XrefType × List XrefId) :=
  items.foldl insertXref []

/-- One output group (`XrefGroupSchema`): a type tag with its identifiers. -/
structure XrefGroup where
  type : XrefType
  ids : List XrefId
deriving DecidableEq, Repr

/-- The `xrefGroups` array of the logic: the grouped map converted to an
array of `{type, ids}` objects. -/
def xrefGroupsOf {ε : Type} (upstream : XrefType → Except ε XrefsResponse)
    (xrefTypes : List XrefType) : List XrefGroup :=
  (groupXrefs (collectAllXrefs upstream xrefTypes)).map (fun p => ⟨p.1, p.2⟩)

/-- Pagination metadata (`PaginationSchema`). -/
structure Pagination where
  currentPage : Nat
  pageSize : Nat
  totalRecords : Nat
  totalPages : Nat
deriving DecidableEq, Repr

/-- Tool output (`PubchemFetchCompoundXrefsOutputSchema`). -/
structure XrefsOutput where
  cid : Nat
  xrefs : List XrefGroup
  pagination : Pagination
deriving DecidableEq, Repr

/-- Validated tool input (`PubchemFetchCompoundXrefsInput`), after Zod
validation and defaulting. -/
structure XrefsInput where
  cid : Nat
  xrefTypes : List XrefType
  page : Nat
  pageSize : Nat
deriving DecidableEq, Repr

/-- The expression `Math.ceil(totalRecords / pageSize)` on natural operands. -/
def ceilDiv (a b : Nat) : Nat := (a + b - 1) / b

/-- The function `pubchemFetchCompoundXrefsLogic`: run the per-type loop, throw
`NOT_FOUND` when the flat list is empty, otherwise group, paginate the
grouped list (`xrefGroups.slice(startIndex, startIndex + pageSize)` with
`startIndex = (page - 1) * pageSize`) and assemble the output. -/
def pubchemFetchCompoundXrefsLogic {ε : Type}
    (upstream : XrefType → Except ε XrefsResponse) (params : XrefsInput) :
    Except McpError XrefsOutput :=
  let allXrefs := collectAllXrefs upstream params.xrefTypes
  if allXrefs.length = 0 then
    Except.error
      { code := BaseErrorCode.NOT_FOUND
        message := "No cross-references found for CID " ++ toString params.cid
          ++ " with the specified types." }
  else
    let xrefGroups := xrefGroupsOf upstream params.xrefTypes
    let totalRecords := xrefGroups.length
    let totalPages := ceilDiv totalRecords params.pageSize
    let startIndex := (params.page - 1) * params.pageSize
    let paginated := (xrefGroups.drop startIndex).take params.pageSize
    Except.ok
      { cid := params.cid
        xrefs := paginated
        pagination :=
          { currentPage := params.page
            pageSize := params.pageSize
            totalRecords := totalRecords
            totalPages := totalPages } }

/-! ### Input schema (`PubchemFetchCompoundXrefsInputSchema`) -/

/-- Raw (pre-validation) tool arguments: the numbers as supplied, the
cross-reference tags as raw strings, the window fields possibly absent. -/
structure RawXrefsInput where
  cid : Int
  xrefTypes : List String
  page : Option Int := none
  pageSize : Option Int := none
deriving DecidableEq, Repr

/-- Zod validation of the tool input: `cid` a positive integer, `xrefTypes`
a non-empty array of enum tags, `page`/`pageSize` positive integers
defaulting to 1 and 50 when omitted. -/
def validateXrefsInput (raw : RawXrefsInput) : Option XrefsInput :=
  (raw.xrefTypes.mapM parseXrefTypeTag).bind (fun ts =>
    if raw.cid ≤ 0 then none
    else if ts.isEmpty then none
    else
      let p := raw.page.getD 1
      let ps := raw.pageSize.getD 50
      if p ≤ 0 then none
      else if ps ≤ 0 then none
      else some { cid := raw.cid.toNat, xrefTypes := ts, page := p.toNat, pageSize := ps.toNat })

/-! ### Trace of the aggregation loop

The loop body of `pubchemFetchCompoundXrefsLogic` is
`for (const xrefType of xrefTypes) { ... await pubChemApiClient.get(...) ... }`:
each iteration awaits its call to completion before the next iteration
begins, and each call (through `executeRequest`) first awaits a rate-limiter
permit. The trace records those suspension points in program order. -/

/-- Observable events of the aggregation loop, tagged with the type being
fetched: the issuance of the per-type call (the invocation of
`pubChemApiClient.get` for that type), the permit grant inside
`executeRequest`, the start of the network request, and its completion. -/
inductive AggEvent where
  | taskStart (t : XrefType)
  | acquirePermit (t : XrefType)
  | networkStart (t : XrefType)
  | networkEnd (t : XrefType)
deriving DecidableEq, Repr

/-- Effect trace of the per-type loop of `pubchemFetchCompoundXrefsLogic` in
program order: for each requested type in turn, the call is issued, the
permit acquired, the network request started and completed — all before the
next type's call is even issued, because the call is awaited inside the
loop body (`for (const xrefType of xrefTypes) { ... await ... }`). -/
def xrefsFetchTrace (xrefTypes : List XrefType) : List AggEvent :=
  xrefTypes.flatMap (fun t =>
    [AggEvent.taskStart t, AggEvent.acquirePermit t,
     AggEvent.networkStart t, AggEvent.networkEnd t])

/-- The property the claim asserts of the aggregation loop: the per-category
calls are issued concurrently, in the Promise.all style (every category's
call is issued before any category's network request completes), rather
than each call being awaited before the next is started. -/
def ConcurrentIssue (xrefTypes : List XrefType) : Prop :=
  ∀ t₁ ∈ xrefTypes, ∀ t₂ ∈ xrefTypes,
    (xrefsFetchTrace xrefTypes).indexOf (AggEvent.taskStart t₂) <
      (xrefsFetchTrace xrefTypes).indexOf (AggEvent.networkEnd t₁)

instance (xrefTypes : List XrefType) : Decidable (ConcurrentIssue xrefTypes) := by
  unfold ConcurrentIssue; exact inferInstance

/-- The shape of a strictly serial gated loop: the trace is a sequence of
per-type blocks, each issuing its call, acquiring a permit, then starting
and finishing its network request before anything of the next block
happens. -/
def SerialTrace : List AggEvent → Prop
  | [] => True
  | AggEvent.taskStart t :: AggEvent.acquirePermit t' :: AggEvent.networkStart t''
      :: AggEvent.networkEnd t''' :: rest =>
    t = t' ∧ t' = t'' ∧ t'' = t''' ∧ SerialTrace rest
  | _ => False

/-! ## Bulk fan-out (`src/mcp-server/tools/fetchCompoundProperties/logic.ts`) -/

/-- The per-CID operation of the fan-out
(`cids.map(async (cid) => { try ... catch ... })`): on success return
`response?.PropertyTable?.Properties || []` (with `none` covering a null
response or a missing `PropertyTable.Properties`), on any thrown error
return the explicit empty marker `[]`. The property-record type and the
error type are abstract. -/
def fetchCidProps {ε π : Type} (upstream : Nat → Except ε (Option (List π)))
    (cid : Nat) : List π :=
  match upstream cid with
  | Except.error _ => []
  | Except.ok none => []
  | Except.ok (some props) => props

/-- The fan-out `const results = await Promise.all(cids.map(...))`:
`Promise.all` resolves to the results in the order of the promise array,
i.e. in input order, independent of completion order. -/
def fanOutProps {ε π : Type} (upstream : Nat → Except ε (Option (List π)))
    (cids : List Nat) : List (List π) :=
  cids.map (fetchCidProps upstream)

/-- The tail of `pubchemFetchCompoundPropertiesLogic`: flatten the fan-out
results and throw `NOT_FOUND` when nothing was fetched for any CID. -/
def pubchemFetchCompoundPropertiesLogic {ε π : Type}
    (upstream : Nat → Except ε (Option (List π))) (cids : List Nat) :
    Except McpError (List π) :=
  let allProperties := (fanOutProps upstream cids).flatten
  if allProperties.length = 0 then
    Except.error
      { code := BaseErrorCode.NOT_FOUND
        message := "Could not fetch properties for any of the provided CIDs." }
  else Except.ok allProperties

/-! ## Concrete scenario used by the pagination example

An upstream where five of the seven categories yield one value each and two
yield none, evaluated at page 4 of size 2 (5 groups, hence 3 pages). -/

/-- Concrete upstream oracle: five categories yield one identifier, `GeneID`
and `ProteinGI` yield a null response. -/
def c3Upstream : XrefType → Except Unit XrefsResponse := fun t =>
  match t with
  | XrefType.GeneID => Except.ok none
  | XrefType.ProteinGI => Except.ok none
  | t => Except.ok (some [[(xrefTypeName t, JsonField.arr [XrefId.num 1])]])

/-- Concrete aggregation input: all seven categories, page 4 of size 2. -/
def c3Params : XrefsInput :=
  { cid := 2244
    xrefTypes := [XrefType.RegistryID, XrefType.RN, XrefType.PubMedID,
      XrefType.PatentID, XrefType.GeneID, XrefType.ProteinGI, XrefType.TaxonomyID]
    page := 4
    pageSize := 2 }

/-- The output the aggregation produces on that scenario: an empty slice
past the last of the 3 pages, with accurate metadata. -/
def c3Out : XrefsOutput :=
  { cid := 2244
    xrefs := []
    pagination := { currentPage := 4, pageSize := 2, totalRecords := 5, totalPages := 3 } }

/-! ## Concrete scenario used by the grouping example

Three requested categories where the middle one's upstream call fails and
the other two succeed with data. -/

/-- Concrete upstream oracle: `RegistryID` yields two values, `RN` fails,
`PubMedID` yields one value, everything else yields a null response. -/
def c4Upstream : XrefType → Except Unit XrefsResponse := fun t =>
  match t with
  | XrefType.RegistryID =>
    Except.ok (some [[("RegistryID", JsonField.arr [XrefId.num 11, XrefId.num 12])]])
  | XrefType.RN => Except.error ()
  | XrefType.PubMedID =>
    Except.ok (some [[("PubMedID", JsonField.arr [XrefId.str "P1"])]])
  | _ => Except.ok none

/-- Concrete aggregation input over the three categories. -/
def c4Params : XrefsInput :=
  { cid := 2244
    xrefTypes := [XrefType.RegistryID, XrefType.RN, XrefType.PubMedID]
    page := 1
    pageSize := 50 }

/-- The output the aggregation produces on that scenario: groups for
`RegistryID` and `PubMedID` only, in request order, with no fatal error. -/
def c4Out : XrefsOutput :=
  { cid := 2244
    xrefs := [⟨XrefType.RegistryID, [XrefId.num 11, XrefId.num 12]⟩,
      ⟨XrefType.PubMedID, [XrefId.str "P1"]⟩]
    pagination := { currentPage := 1, pageSize := 50, totalRecords := 2, totalPages := 1 } }

/-! ## Helper notions used only by the theorems -/

/-- The subsequence of first occurrences of a list, skipping elements
already seen: `firstDedupFrom seen l` drops every element of `seen` and
every repeat, keeping first occurrences in order. -/
def firstDedupFrom {α : Type} [DecidableEq α] (seen : List α) : List α → List α
  | [] => []
  | a :: l =>
    if a ∈ seen then firstDedupFrom seen l
    else a :: firstDedupFrom (a :: seen) l

/-- First-occurrence deduplication: the order-preserving list of distinct
elements, each at its first occurrence. -/
def firstDedup {α : Type} [DecidableEq α] (l : List α) : List α :=
  firstDedupFrom [] l

/-! ## Theorems -/

/-- The `switch` of `executeRequest` seen as the spec's mapping table. -/
theorem statusToErrorCode_eq_table (n : Nat) :
    statusToErrorCode n =
      (if n = 400 then BaseErrorCode.INVALID_INPUT
       else if n = 404 then BaseErrorCode.NOT_FOUND
       else if n = 405 then BaseErrorCode.METHOD_NOT_ALLOWED
       else if n = 503 then BaseErrorCode.SERVICE_UNAVAILABLE
       else if n = 504 then BaseErrorCode.GATEWAY_TIMEOUT
       else BaseErrorCode.EXTERNAL_SERVICE_ERROR) := by
  unfold statusToErrorCode
  split
  · decide
  · decide
  · decide
  · decide
  · decide
  · rename_i h400 h404 h405 h503 h504
    rw [if_neg h400, if_neg h404, if_neg h405, if_neg h503, if_neg h504]

/-- C1: every non-2xx response makes both `get` (`fetchJSON`) and `getBlob`
(`fetchBinary`) fail with exactly one typed error whose kind is determined
by the status: 400 → `INVALID_INPUT`, 404 → `NOT_FOUND`,
405 → `METHOD_NOT_ALLOWED`, 503 → `SERVICE_UNAVAILABLE`,
504 → `GATEWAY_TIMEOUT`, and any other non-2xx status →
`EXTERNAL_SERVICE_ERROR`. -/
theorem client_status_error_mapping {α : Type} (parseJson : String → Option α)
    (r : HttpResponse) (h : ¬ (200 ≤ r.status ∧ r.status ≤ 299)) :
    ∃ e : McpError,
      PubChemApiClient.get parseJson r = Except.error (ClientError.api e) ∧
      PubChemApiClient.getBlob r = Except.error e ∧
      e.code =
        (if r.status = 400 then BaseErrorCode.INVALID_INPUT
         else if r.status = 404 then BaseErrorCode.NOT_FOUND
         else if r.status = 405 then BaseErrorCode.METHOD_NOT_ALLOWED
         else if r.status = 503 then BaseErrorCode.SERVICE_UNAVAILABLE
         else if r.status = 504 then BaseErrorCode.GATEWAY_TIMEOUT
         else BaseErrorCode.EXTERNAL_SERVICE_ERROR) := by
  have hok : r.ok = false := by
    unfold HttpResponse.ok
    rcases Nat.lt_or_ge r.status 200 with h1 | h1
    · simp [Nat.not_le_of_lt h1]
    · have h2 : ¬ r.status ≤ 299 := fun hle => h ⟨h1, hle⟩
      simp [h2]
  refine ⟨upstreamError r, ?_, ?_, ?_⟩
  · unfold PubChemApiClient.get executeRequest
    rw [hok]
    simp
  · unfold PubChemApiClient.getBlob executeRequest
    rw [hok]
    simp
  · exact statusToErrorCode_eq_table r.status

/-- Witness for C1 at a concrete unmapped non-2xx status (500): both client
operations fail with the same error, of kind `EXTERNAL_SERVICE_ERROR`. -/
theorem client_status_error_mapping_witness :
    ∃ e : McpError,
      PubChemApiClient.get (α := Unit) (fun _ => none) { status := 500 } =
        Except.error (ClientError.api e) ∧
      PubChemApiClient.getBlob { status := 500 } = Except.error e ∧
      e.code =
        (if 500 = 400 then BaseErrorCode.INVALID_INPUT
         else if 500 = 404 then BaseErrorCode.NOT_FOUND
         else if 500 = 405 then BaseErrorCode.METHOD_NOT_ALLOWED
         else if 500 = 503 then BaseErrorCode.SERVICE_UNAVAILABLE
         else if 500 = 504 then BaseErrorCode.GATEWAY_TIMEOUT
         else BaseErrorCode.EXTERNAL_SERVICE_ERROR) :=
  client_status_error_mapping (fun _ => none) { status := 500 } (by decide)

/-- C7: on every call through the client (both `get` and `getBlob` run
`executeRequest`, whatever the path), the network request appears in the
effect trace only after a completed rate-limiter permit acquisition. -/
theorem permit_before_network (path : String) (i : Nat) (url : String)
    (h : (executeRequestTrace path).get? i = some (GatewayEvent.networkRequest url)) :
    ∃ j, j < i ∧ (executeRequestTrace path).get? j = some GatewayEvent.acquirePermit := by
  refine ⟨0, ?_, rfl⟩
  match i with
  | 0 => exact absurd h (by simp [executeRequestTrace])
  | 1 => exact Nat.zero_lt_one
  | (n + 2) => exact absurd h (by simp [executeRequestTrace])

/-- Witness for C7: in the trace of a concrete call, the network request at
index 1 is preceded by the permit acquisition. -/
theorem permit_before_network_witness :
    ∃ j, j < 1 ∧ (executeRequestTrace "/compound/cid/2244/xrefs/RN/JSON").get? j =
      some GatewayEvent.acquirePermit :=
  permit_before_network "/compound/cid/2244/xrefs/RN/JSON" 1
    (resolveUrl "/compound/cid/2244/xrefs/RN/JSON") rfl

/-- C8: a 204 response makes `get` (`fetchJSON`) return `null` without
raising and without consulting the body parser: the result is `ok none` for
every parser (in particular one that rejects every body) and every body. -/
theorem get_204_returns_null {α : Type} (parseJson : String → Option α)
    (statusText bodyText : String) (bodyBytes : List Nat) (hdr : Option String) :
    PubChemApiClient.get parseJson
      { status := 204, statusText := statusText, bodyText := bodyText,
        bodyBytes := bodyBytes, pubchemStatusHeader := hdr } =
      Except.ok none := by
  unfold PubChemApiClient.get executeRequest HttpResponse.ok
  simp

/-- C10: `getBlob` (`fetchBinary`) applies no 204 special case: every 2xx
response, 204 included, yields the raw body bytes, never a null result. -/
theorem getBlob_no_204_special_case (r : HttpResponse)
    (h1 : 200 ≤ r.status) (h2 : r.status ≤ 299) :
    PubChemApiClient.getBlob r = Except.ok r.bodyBytes := by
  unfold PubChemApiClient.getBlob executeRequest HttpResponse.ok
  simp [h1, h2]

/-- Witness for C10 at a 204 No Content response with an empty body:
`getBlob` returns the empty byte buffer, not a null result. -/
theorem getBlob_no_204_special_case_witness :
    PubChemApiClient.getBlob { status := 204, bodyBytes := [] } = Except.ok [] :=
  getBlob_no_204_special_case { status := 204, bodyBytes := [] } (by decide) (by decide)

/-- C2: for every aggregation call (positive cid, non-empty category list)
the aggregator throws exactly when the flat list of parsed values is empty
after all categories were attempted, and then with kind `NOT_FOUND`; an
individual category's upstream failure is absorbed (it is only logged as a
warning) and never by itself fails the aggregation. -/
theorem xrefs_failure_semantics {ε : Type}
    (upstream : XrefType → Except ε XrefsResponse) (params : XrefsInput)
    (hcid : 1 ≤ params.cid) (hne : params.xrefTypes ≠ []) :
    (∀ e, pubchemFetchCompoundXrefsLogic upstream params = Except.error e →
      e.code = BaseErrorCode.NOT_FOUND ∧ collectAllXrefs upstream params.xrefTypes = []) ∧
    (collectAllXrefs upstream params.xrefTypes = [] →
      ∃ e, pubchemFetchCompoundXrefsLogic upstream params = Except.error e ∧
        e.code = BaseErrorCode.NOT_FOUND) ∧
    (collectAllXrefs upstream params.xrefTypes ≠ [] →
      ∃ out, pubchemFetchCompoundXrefsLogic upstream params = Except.ok out) ∧
    (∀ t ∈ params.xrefTypes, (∃ e, upstream t = Except.error e) →
      t ∈ xrefsWarnings upstream params.xrefTypes) := by
  refine ⟨?_, ?_, ?_, ?_⟩
  · intro e he
    unfold pubchemFetchCompoundXrefsLogic at he
    by_cases hz : (collectAllXrefs upstream params.xrefTypes).length = 0
    · rw [if_pos hz] at he
      refine ⟨?_, List.length_eq_zero.mp hz⟩
      cases he
      rfl
    · rw [if_neg hz] at he
      cases he
  · intro hz
    unfold pubchemFetchCompoundXrefsLogic
    rw [if_pos (by rw [hz]; rfl)]
    exact ⟨_, rfl, rfl⟩
  · intro hz
    unfold pubchemFetchCompoundXrefsLogic
    rw [if_neg (fun h => hz (List.length_eq_zero.mp h))]
    exact ⟨_, rfl⟩
  · intro t ht ⟨e, he⟩
    unfold xrefsWarnings
    rw [List.mem_filter]
    exact ⟨ht, by rw [he]⟩

/-- Witness for C2: with an upstream that fails for every category, the
aggregation over one category fails with `NOT_FOUND`. -/
theorem xrefs_failure_semantics_witness :
    ∃ e, pubchemFetchCompoundXrefsLogic (ε := Unit) (fun _ => Except.error ())
        { cid := 2244, xrefTypes := [XrefType.RN], page := 1, pageSize := 50 } =
      Except.error e ∧ e.code = BaseErrorCode.NOT_FOUND :=
  (xrefs_failure_semantics (ε := Unit) (fun _ => Except.error ())
    { cid := 2244, xrefTypes := [XrefType.RN], page := 1, pageSize := 50 }
    (by decide) (by decide)).2.1 (by decide)

/-- C6: the bulk fan-out returns exactly one entry per input, in input
order: the entry at position `i` is the per-item result for input `i`, and
an input whose operation failed contributes the explicit empty marker at
its position instead of aborting the batch. -/
theorem fanout_preserves_order {ε π : Type}
    (upstream : Nat → Except ε (Option (List π))) (cids : List Nat) :
    (fanOutProps upstream cids).length = cids.length ∧
    (∀ i : Nat, ∀ hi : i < cids.length,
      (fanOutProps upstream cids).get? i = some (fetchCidProps upstream (cids.get ⟨i, hi⟩))) ∧
    (∀ i : Nat, ∀ hi : i < cids.length, ∀ e : ε,
      upstream (cids.get ⟨i, hi⟩) = Except.error e →
      (fanOutProps upstream cids).get? i = some []) := by
  refine ⟨List.length_map _ _, ?_, ?_⟩
  · intro i hi
    unfold fanOutProps
    rw [List.get?_map]
    rw [List.get?_eq_get hi]
    rfl
  · intro i hi e he
    have h2 : fetchCidProps upstream (cids.get ⟨i, hi⟩) = [] := by
      unfold fetchCidProps
      rw [he]
    unfold fanOutProps
    rw [List.get?_map, List.get?_eq_get hi]
    show some (fetchCidProps upstream (cids.get ⟨i, hi⟩)) = some []
    rw [h2]

/-- Witness for C6: fanning out over `[1, 2, 3]` where the operation for
input 2 fails yields, in that exact order, the result for 1, the empty
marker, and the result for 3. -/
theorem fanout_preserves_order_witness :
    (fanOutProps (ε := String) (π := Nat)
        (fun cid => if cid = 2 then Except.error "boom" else Except.ok (some [cid * 10]))
        [1, 2, 3]).get? 1 = some [] ∧
    fanOutProps (ε := String) (π := Nat)
        (fun cid => if cid = 2 then Except.error "boom" else Except.ok (some [cid * 10]))
        [1, 2, 3] = [[10], [], [30]] :=
  ⟨(fanout_preserves_order
      (fun cid => if cid = 2 then Except.error "boom" else Except.ok (some [cid * 10]))
      [1, 2, 3]).2.2 1 (by decide) "boom" rfl,
   by decide⟩

/-- Lower ceiling bound: `ceilDiv R S` pages of size `S` cover all `R`
records. -/
theorem le_ceilDiv_mul (R S : Nat) (hs : 1 ≤ S) : R ≤ ceilDiv R S * S := by
  unfold ceilDiv
  rcases Nat.eq_zero_or_pos R with hR | hR
  · omega
  · have e : R + S - 1 = (R - 1) + S := by omega
    rw [e, Nat.add_div_right _ (by omega : 0 < S), Nat.add_mul, Nat.one_mul]
    have hdm := Nat.div_add_mod (R - 1) S
    have hm : (R - 1) % S < S := Nat.mod_lt _ (by omega)
    rw [Nat.mul_comm S ((R - 1) / S)] at hdm
    omega

/-- Upper ceiling bound: one page fewer than `ceilDiv R S` does not cover
all `R` records. -/
theorem ceilDiv_mul_lt (R S : Nat) (hs : 1 ≤ S) : ceilDiv R S * S < R + S := by
  unfold ceilDiv
  have hdm := Nat.div_add_mod (R + S - 1) S
  rw [Nat.mul_comm S ((R + S - 1) / S)] at hdm
  omega

/-- C3: pagination operates over the ordered list of groups, one unit per
group: the metadata echoes page and pageSize, `totalRecords` counts the
groups, `totalPages` is the ceiling of `totalRecords / pageSize`
(characterized by its two defining bounds), the returned slice holds the
groups at indices `[(page-1)*pageSize, (page-1)*pageSize + pageSize)`, and
a page beyond `totalPages` yields an empty slice, not an error. -/
theorem xrefs_group_pagination {ε : Type}
    (upstream : XrefType → Except ε XrefsResponse) (params : XrefsInput)
    (out : XrefsOutput)
    (hp : 1 ≤ params.page) (hs : 1 ≤ params.pageSize)
    (h : pubchemFetchCompoundXrefsLogic upstream params = Except.ok out) :
    out.pagination.currentPage = params.page ∧
    out.pagination.pageSize = params.pageSize ∧
    out.pagination.totalRecords = (xrefGroupsOf upstream params.xrefTypes).length ∧
    out.pagination.totalRecords ≤ out.pagination.totalPages * params.pageSize ∧
    out.pagination.totalPages * params.pageSize < out.pagination.totalRecords + params.pageSize ∧
    (∀ i : Nat, i < params.pageSize →
      out.xrefs[i]? =
        (xrefGroupsOf upstream params.xrefTypes)[(params.page - 1) * params.pageSize + i]?) ∧
    (∀ i : Nat, params.pageSize ≤ i → out.xrefs[i]? = none) ∧
    (out.pagination.totalPages < params.page → out.xrefs = []) := by
  unfold pubchemFetchCompoundXrefsLogic at h
  by_cases hz : (collectAllXrefs upstream params.xrefTypes).length = 0
  · rw [if_pos hz] at h
    cases h
  rw [if_neg hz] at h
  cases h
  refine ⟨rfl, rfl, rfl, ?_, ?_, ?_, ?_, ?_⟩
  · exact le_ceilDiv_mul _ _ hs
  · exact ceilDiv_mul_lt _ _ hs
  · intro i hi
    show (((xrefGroupsOf upstream params.xrefTypes).drop
        ((params.page - 1) * params.pageSize)).take params.pageSize)[i]? = _
    rw [List.getElem?_take, if_pos hi, List.getElem?_drop]
  · intro i hi
    show (((xrefGroupsOf upstream params.xrefTypes).drop
        ((params.page - 1) * params.pageSize)).take params.pageSize)[i]? = none
    rw [List.getElem?_take, if_neg (by omega)]
  · intro hlt
    have hlt' : ceilDiv (xrefGroupsOf upstream params.xrefTypes).length params.pageSize
        < params.page := hlt
    have h1 : (xrefGroupsOf upstream params.xrefTypes).length ≤
        ceilDiv (xrefGroupsOf upstream params.xrefTypes).length params.pageSize
          * params.pageSize :=
      le_ceilDiv_mul _ _ hs
    have h2 : ceilDiv (xrefGroupsOf upstream params.xrefTypes).length params.pageSize
          * params.pageSize ≤ (params.page - 1) * params.pageSize :=
      Nat.mul_le_mul_right _ (by omega)
    show ((xrefGroupsOf upstream params.xrefTypes).drop
        ((params.page - 1) * params.pageSize)).take params.pageSize = []
    rw [List.drop_eq_nil_of_le (Nat.le_trans h1 h2), List.take_nil]

/-- Witness for C3 on the concrete scenario of 5 groups with pageSize 2 and
page 4: the metadata is accurate (totalRecords 5, totalPages 3) and the
slice past the last page is empty. -/
theorem xrefs_group_pagination_witness :
    c3Out.pagination.currentPage = c3Params.page ∧
    c3Out.pagination.pageSize = c3Params.pageSize ∧
    c3Out.pagination.totalRecords = (xrefGroupsOf c3Upstream c3Params.xrefTypes).length ∧
    c3Out.pagination.totalRecords ≤ c3Out.pagination.totalPages * c3Params.pageSize ∧
    c3Out.pagination.totalPages * c3Params.pageSize
      < c3Out.pagination.totalRecords + c3Params.pageSize ∧
    (∀ i : Nat, i < c3Params.pageSize →
      c3Out.xrefs[i]? =
        (xrefGroupsOf c3Upstream c3Params.xrefTypes)[(c3Params.page - 1) * c3Params.pageSize + i]?) ∧
    (∀ i : Nat, c3Params.pageSize ≤ i → c3Out.xrefs[i]? = none) ∧
    (c3Out.pagination.totalPages < c3Params.page → c3Out.xrefs = []) :=
  xrefs_group_pagination c3Upstream c3Params c3Out (by decide) (by decide) rfl

/-- C5, counterexample: the claim that the per-category upstream calls are
issued concurrently (each call issued before any call completes, rather
than a serial loop awaiting each call before starting the next) is false
for the concrete request `[RegistryID, RN]`: in the loop's trace the first
call completes before the second is issued. -/
theorem xrefs_not_concurrent_counterexample :
    ¬ ConcurrentIssue [XrefType.RegistryID, XrefType.RN] := by
  decide

/-- C5, amended: the per-category upstream calls of the aggregation loop
are issued serially — each category's call is issued, gated by a
rate-limiter permit, started and awaited to completion before the next
category's call is issued. -/
theorem xrefs_serial_gated_loop (xrefTypes : List XrefType) :
    SerialTrace (xrefsFetchTrace xrefTypes) := by
  induction xrefTypes with
  | nil => trivial
  | cons t ts ih => exact ⟨rfl, rfl, rfl, ih⟩

/-- C9: the aggregator's validated input satisfies the caller-facing
contract: a non-empty list of category tags drawn from the fixed
seven-member enumeration (hence at most 7 distinct tags; an empty list is
rejected), a positive page defaulting to 1 and a positive pageSize
defaulting to 50 when omitted, and a positive cid. -/
theorem xrefs_input_contract (raw : RawXrefsInput) (inp : XrefsInput)
    (h : validateXrefsInput raw = some inp) :
    inp.xrefTypes ≠ [] ∧
    inp.xrefTypes.dedup.length ≤ 7 ∧
    1 ≤ inp.page ∧ 1 ≤ inp.pageSize ∧ 1 ≤ inp.cid ∧
    (raw.page = none → inp.page = 1) ∧
    (raw.pageSize = none → inp.pageSize = 50) ∧
    (∀ raw' : RawXrefsInput, raw'.xrefTypes = [] → validateXrefsInput raw' = none) := by
  unfold validateXrefsInput at h
  rcases hts : raw.xrefTypes.mapM parseXrefTypeTag with _ | ts
  · rw [hts] at h
    cases h
  rw [hts, Option.some_bind] at h
  by_cases hc : raw.cid ≤ 0
  · rw [if_pos hc] at h
    cases h
  rw [if_neg hc] at h
  by_cases hemp : ts.isEmpty
  · rw [if_pos hemp] at h
    cases h
  rw [if_neg hemp] at h
  by_cases hp : raw.page.getD 1 ≤ 0
  · rw [if_pos hp] at h
    cases h
  rw [if_neg hp] at h
  by_cases hps : raw.pageSize.getD 50 ≤ 0
  · rw [if_pos hps] at h
    cases h
  rw [if_neg hps] at h
  cases h
  refine ⟨?_, ?_, ?_, ?_, ?_, ?_, ?_, ?_⟩
  · show ts ≠ []
    intro hnil
    exact hemp (by rw [hnil]; rfl)
  · show (ts.dedup : List XrefType).length ≤ 7
    have hcard : (ts.dedup : List XrefType).length ≤ Fintype.card XrefType :=
      List.Nodup.length_le_card (List.nodup_dedup ts)
    have : Fintype.card XrefType = 7 := rfl
    omega
  · show 1 ≤ (raw.page.getD 1).toNat
    omega
  · show 1 ≤ (raw.pageSize.getD 50).toNat
    omega
  · show 1 ≤ raw.cid.toNat
    omega
  · intro hm
    show (raw.page.getD 1).toNat = 1
    rw [hm]
    rfl
  · intro hm
    show (raw.pageSize.getD 50).toNat = 50
    rw [hm]
    rfl
  · intro raw' hnil
    unfold validateXrefsInput
    rw [hnil]
    show (some ([] : List XrefType)).bind _ = none
    rw [Option.some_bind]
    by_cases hc' : raw'.cid ≤ 0
    · rw [if_pos hc']
    · rw [if_neg hc']
      rfl

/-- Two seen-lists with the same members yield the same first-occurrence
subsequence. -/
theorem firstDedupFrom_congr {α : Type} [DecidableEq α] (l : List α)
    (s s' : List α) (h : ∀ x, x ∈ s ↔ x ∈ s') :
    firstDedupFrom s l = firstDedupFrom s' l := by
  induction l generalizing s s' with
  | nil => rfl
  | cons a l ih =>
    unfold firstDedupFrom
    by_cases ha : a ∈ s
    · rw [if_pos ha, if_pos ((h a).mp ha)]
      exact ih s s' h
    · rw [if_neg ha, if_neg (fun hx => ha ((h a).mpr hx))]
      refine congrArg (a :: ·) (ih (a :: s) (a :: s') (fun x => ?_))
      simp only [List.mem_cons]
      exact or_congr Iff.rfl (h x)

/-- Members of the first-occurrence subsequence are members of the list. -/
theorem mem_of_mem_firstDedupFrom {α : Type} [DecidableEq α] {x : α}
    (l : List α) (s : List α) (h : x ∈ firstDedupFrom s l) : x ∈ l := by
  induction l generalizing s with
  | nil => exact absurd h (List.not_mem_nil x)
  | cons a l ih =>
    unfold firstDedupFrom at h
    by_cases ha : a ∈ s
    · rw [if_pos ha] at h
      exact List.mem_cons_of_mem a (ih s h)
    · rw [if_neg ha] at h
      rcases List.mem_cons.mp h with h | h
      · exact h ▸ List.mem_cons_self a l
      · exact List.mem_cons_of_mem a (ih (a :: s) h)

/-- Seeding the seen-list with an element that does not occur in the list
changes nothing. -/
theorem firstDedupFrom_cons_of_not_mem {α : Type} [DecidableEq α] {a : α}
    (l : List α) (s : List α) (h : a ∉ l) :
    firstDedupFrom (a :: s) l = firstDedupFrom s l := by
  induction l generalizing s with
  | nil => rfl
  | cons b l ih =>
    have hba : ¬b = a := fun hb => h (hb ▸ List.mem_cons_self b l)
    have hbl : a ∉ l := fun hl => h (List.mem_cons_of_mem b hl)
    unfold firstDedupFrom
    by_cases hb : b ∈ s
    · rw [if_pos (List.mem_cons_of_mem a hb), if_pos hb]
      exact ih s hbl
    · rw [if_neg (fun hx => (List.mem_cons.mp hx).elim hba hb), if_neg hb]
      refine congrArg (b :: ·) ?_
      rw [firstDedupFrom_congr l (b :: a :: s) (a :: b :: s)
        (fun x => by simp only [List.mem_cons]; tauto)]
      exact ih (b :: s) hbl

/-- Replicates of an already-seen element are skipped wholesale. -/
theorem firstDedupFrom_replicate_append {α : Type} [DecidableEq α] {t : α}
    (k : Nat) (s : List α) (xs : List α) (h : t ∈ s) :
    firstDedupFrom s (List.replicate k t ++ xs) = firstDedupFrom s xs := by
  induction k with
  | zero => rfl
  | succ k ih =>
    rw [List.replicate_succ, List.cons_append]
    conv_lhs => rw [firstDedupFrom]
    rw [if_pos h]
    exact ih

/-- Keys after one grouping step: unchanged when the type already has a
group, extended at the end when it does not. -/
theorem insertXref_keys (acc : List (XrefType × List XrefId)) (item : TempXrefItem) :
    (insertXref acc item).map Prod.fst =
      (if item.type ∈ acc.map Prod.fst then acc.map Prod.fst
       else acc.map Prod.fst ++ [item.type]) := by
  unfold insertXref
  by_cases hmem : item.type ∈ acc.map Prod.fst
  · have hany : (acc.any fun p => decide (p.1 = item.type)) = true := by
      rcases List.mem_map.mp hmem with ⟨p, hp, hfst⟩
      exact List.any_eq_true.mpr ⟨p, hp, decide_eq_true hfst⟩
    rw [if_pos hany, if_pos hmem, List.map_map]
    refine List.map_congr_left (fun p hp => ?_)
    by_cases hpt : p.1 = item.type
    · simp [hpt]
    · simp [hpt]
  · have hany : ¬ (acc.any fun p => decide (p.1 = item.type)) = true := by
      intro hc
      rcases List.any_eq_true.mp hc with ⟨p, hp, hd⟩
      exact hmem (List.mem_map.mpr ⟨p, hp, of_decide_eq_true hd⟩)
    rw [if_neg hany, if_neg hmem, List.map_append]
    rfl

/-- Keys of the grouping fold: the keys already present, followed by the
first occurrences of the remaining item types. -/
theorem groupXrefs_keys_foldl (items : List TempXrefItem)
    (acc : List (XrefType × List XrefId)) :
    (items.foldl insertXref acc).map Prod.fst =
      acc.map Prod.fst ++
        firstDedupFrom (acc.map Prod.fst) (items.map TempXrefItem.type) := by
  induction items generalizing acc with
  | nil => simp [firstDedupFrom]
  | cons it items ih =>
    rw [List.foldl_cons, ih (insertXref acc it), insertXref_keys, List.map_cons]
    conv_rhs => rw [firstDedupFrom]
    by_cases hmem : it.type ∈ acc.map Prod.fst
    · rw [if_pos hmem, if_pos hmem]
    · rw [if_neg hmem, if_neg hmem,
        firstDedupFrom_congr (items.map TempXrefItem.type)
          (acc.map Prod.fst ++ [it.type]) (it.type :: acc.map Prod.fst)
          (fun x => by
            simp only [List.mem_append, List.mem_cons, List.mem_singleton,
              List.not_mem_nil, or_false]
            exact or_comm),
        List.append_assoc]
      rfl

/-- Values after one grouping step stay non-empty. -/
theorem insertXref_vals_ne_nil (acc : List (XrefType × List XrefId))
    (item : TempXrefItem) (hacc : ∀ p ∈ acc, p.2 ≠ []) :
    ∀ p ∈ insertXref acc item, p.2 ≠ [] := by
  intro p hp
  unfold insertXref at hp
  split at hp
  · rcases List.mem_map.mp hp with ⟨q, hq, hqe⟩
    by_cases hqt : q.1 = item.type
    · rw [if_pos hqt] at hqe
      rw [← hqe]
      exact fun hnil => List.cons_ne_nil item.id [] (List.append_eq_nil.mp hnil).2
    · rw [if_neg hqt] at hqe
      exact hqe ▸ hacc q hq
  · rcases List.mem_append.mp hp with hp | hp
    · exact hacc p hp
    · rw [List.mem_singleton.mp hp]
      exact List.cons_ne_nil item.id []

/-- Values of the grouping fold are non-empty. -/
theorem groupXrefs_vals_ne_nil (items : List TempXrefItem)
    (acc : List (XrefType × List XrefId)) (hacc : ∀ p ∈ acc, p.2 ≠ []) :
    ∀ p ∈ items.foldl insertXref acc, p.2 ≠ [] := by
  induction items generalizing acc with
  | nil => exact hacc
  | cons it items ih =>
    rw [List.foldl_cons]
    exact ih (insertXref acc it) (insertXref_vals_ne_nil acc it hacc)

/-- Every item the loop body produces for one requested type carries that
type's tag. -/
theorem fetchTypeXrefs_type_eq {ε : Type} (upstream : XrefType → Except ε XrefsResponse)
    (t : XrefType) : ∀ it ∈ fetchTypeXrefs upstream t, it.type = t := by
  intro it hit
  unfold fetchTypeXrefs at hit
  rcases hu : upstream t with e | r
  · rw [hu] at hit
    exact absurd hit (List.not_mem_nil it)
  rw [hu] at hit
  rcases r with _ | infos
  · exact absurd hit (List.not_mem_nil it)
  rcases List.mem_flatMap.mp hit with ⟨info, hinfo, hmem⟩
  rcases List.mem_map.mp hmem with ⟨i, hi, hie⟩
  rw [← hie]

/-- A map that is constant on a list is a replicate of its length. -/
theorem map_eq_replicate_of_forall {α β : Type} (l : List α) (f : α → β) (c : β)
    (h : ∀ x ∈ l, f x = c) : l.map f = List.replicate l.length c := by
  induction l with
  | nil => rfl
  | cons a l ih =>
    rw [List.map_cons, List.length_cons, List.replicate_succ,
      h a (List.mem_cons_self a l),
      ih (fun x hx => h x (List.mem_cons_of_mem a hx))]

/-- The item types of the flat list: each requested type, replicated as
often as its call yielded values, in request order. -/
theorem collect_map_type {ε : Type} (upstream : XrefType → Except ε XrefsResponse)
    (xrefTypes : List XrefType) :
    (collectAllXrefs upstream xrefTypes).map TempXrefItem.type =
      xrefTypes.flatMap (fun t =>
        List.replicate (fetchTypeXrefs upstream t).length t) := by
  unfold collectAllXrefs
  rw [List.map_flatMap]
  refine List.flatMap_congr (fun t ht => ?_)
  exact map_eq_replicate_of_forall _ _ _ (fetchTypeXrefs_type_eq upstream t)

/-- First occurrences of a flattened list of replicates: exactly the
elements whose replicate count is positive, in order. -/
theorem firstDedupFrom_flatMap_replicate {α : Type} [DecidableEq α]
    (l : List α) (n : α → Nat) (seen : List α) :
    firstDedupFrom seen (l.flatMap fun t => List.replicate (n t) t) =
      firstDedupFrom seen (l.filter fun t => n t ≠ 0) := by
  induction l generalizing seen with
  | nil => rfl
  | cons t rest ih =>
    rw [List.flatMap_cons, List.filter_cons]
    by_cases hn : n t = 0
    · have hd : (decide (n t ≠ 0)) = false := by simp [hn]
      rw [hd, if_neg Bool.false_ne_true, hn, List.replicate_zero, List.nil_append]
      exact ih seen
    · have hd : (decide (n t ≠ 0)) = true := by simp [hn]
      rw [hd, if_pos rfl]
      by_cases hs : t ∈ seen
      · rw [firstDedupFrom_replicate_append (n t) seen _ hs]
        conv_rhs => rw [firstDedupFrom]
        rw [if_pos hs]
        exact ih seen
      · have hk : n t = (n t - 1) + 1 := by omega
        rw [hk, List.replicate_succ, List.cons_append]
        conv_lhs => rw [firstDedupFrom]
        conv_rhs => rw [firstDedupFrom]
        rw [if_neg hs, if_neg hs,
          firstDedupFrom_replicate_append (n t - 1) (t :: seen) _
            (List.mem_cons_self t seen)]
        exact congrArg (t :: ·) (ih (t :: seen))

/-- Filtering a list can only thin out its first-occurrence subsequence, in
order. -/
theorem firstDedupFrom_filter_sublist {α : Type} [DecidableEq α]
    (l : List α) (p : α → Bool) (seen : List α) :
    (firstDedupFrom seen (l.filter p)).Sublist (firstDedupFrom seen l) := by
  induction l generalizing seen with
  | nil => exact List.Sublist.refl _
  | cons t rest ih =>
    rw [List.filter_cons]
    by_cases hp : p t = true
    · rw [hp, if_pos rfl]
      conv_lhs => rw [firstDedupFrom]
      conv_rhs => rw [firstDedupFrom]
      by_cases hs : t ∈ seen
      · rw [if_pos hs, if_pos hs]
        exact ih seen
      · rw [if_neg hs, if_neg hs]
        exact List.Sublist.cons₂ t (ih (t :: seen))
    · rw [Bool.not_eq_true] at hp
      rw [hp, if_neg Bool.false_ne_true]
      conv_rhs => rw [firstDedupFrom]
      by_cases hs : t ∈ seen
      · rw [if_pos hs]
        exact ih seen
      · rw [if_neg hs]
        have hno : t ∉ rest.filter p := fun hc =>
          by rw [(List.mem_filter.mp hc).2] at hp; cases hp
        rw [← firstDedupFrom_cons_of_not_mem (rest.filter p) seen hno]
        exact List.Sublist.cons t (ih (t :: seen))

/-- The group types of the aggregation, before pagination: exactly the
requested categories that yielded at least one value, at their first
occurrence, in request order. -/
theorem xrefGroups_type_order {ε : Type} (upstream : XrefType → Except ε XrefsResponse)
    (xrefTypes : List XrefType) :
    (xrefGroupsOf upstream xrefTypes).map XrefGroup.type =
      firstDedup (xrefTypes.filter (fun t => fetchTypeXrefs upstream t ≠ [])) := by
  unfold xrefGroupsOf groupXrefs firstDedup
  rw [List.map_map]
  have hcomp : (XrefGroup.type ∘ fun p : XrefType × List XrefId => XrefGroup.mk p.1 p.2)
      = Prod.fst := funext (fun p => rfl)
  rw [hcomp, groupXrefs_keys_foldl, List.map_nil, List.nil_append, collect_map_type,
    firstDedupFrom_flatMap_replicate]
  refine congrArg (firstDedupFrom []) (List.filter_congr (fun t ht => ?_))
  exact decide_eq_decide.mpr (not_congr List.length_eq_zero)

/-- C4: in every successful aggregation result, every returned group holds
at least one value, the group types appear in the original request order of
the categories (the pre-pagination group list equals the first occurrences
of the requested categories that yielded values, and the returned slice is
an order-preserving subsequence of the deduplicated request order), and a
requested category that yielded zero values is absent from the result. -/
theorem xrefs_group_order_nonempty {ε : Type}
    (upstream : XrefType → Except ε XrefsResponse) (params : XrefsInput)
    (out : XrefsOutput)
    (h : pubchemFetchCompoundXrefsLogic upstream params = Except.ok out) :
    (∀ g ∈ out.xrefs, g.ids ≠ []) ∧
    ((xrefGroupsOf upstream params.xrefTypes).map XrefGroup.type =
      firstDedup (params.xrefTypes.filter (fun t => fetchTypeXrefs upstream t ≠ []))) ∧
    (out.xrefs.map XrefGroup.type).Sublist (firstDedup params.xrefTypes) ∧
    (∀ g ∈ out.xrefs, fetchTypeXrefs upstream g.type ≠ []) := by
  unfold pubchemFetchCompoundXrefsLogic at h
  by_cases hz : (collectAllXrefs upstream params.xrefTypes).length = 0
  · rw [if_pos hz] at h
    cases h
  rw [if_neg hz] at h
  cases h
  have hsub : (((xrefGroupsOf upstream params.xrefTypes).drop
      ((params.page - 1) * params.pageSize)).take params.pageSize).Sublist
      (xrefGroupsOf upstream params.xrefTypes) :=
    (List.take_sublist _ _).trans (List.drop_sublist _ _)
  have hmemG : ∀ g, g ∈ ((xrefGroupsOf upstream params.xrefTypes).drop
      ((params.page - 1) * params.pageSize)).take params.pageSize →
      ∃ p, p ∈ groupXrefs (collectAllXrefs upstream params.xrefTypes) ∧
        XrefGroup.mk p.1 p.2 = g := by
    intro g hg
    have hgG : g ∈ xrefGroupsOf upstream params.xrefTypes := hsub.subset hg
    unfold xrefGroupsOf at hgG
    exact List.mem_map.mp hgG
  refine ⟨?_, xrefGroups_type_order upstream params.xrefTypes, ?_, ?_⟩
  · intro g hg
    rcases hmemG g hg with ⟨p, hp, hpe⟩
    have hnn := groupXrefs_vals_ne_nil (collectAllXrefs upstream params.xrefTypes) []
      (fun q hq => absurd hq (List.not_mem_nil q)) p hp
    rw [← hpe]
    exact hnn
  · have hslice := List.Sublist.map XrefGroup.type hsub
    rw [xrefGroups_type_order] at hslice
    exact hslice.trans
      (firstDedupFrom_filter_sublist params.xrefTypes
        (fun t => fetchTypeXrefs upstream t ≠ []) [])
  · intro g hg
    have hty : g.type ∈ (xrefGroupsOf upstream params.xrefTypes).map XrefGroup.type :=
      List.mem_map_of_mem XrefGroup.type (hsub.subset hg)
    rw [xrefGroups_type_order] at hty
    have hfil := mem_of_mem_firstDedupFrom _ [] hty
    exact of_decide_eq_true (List.mem_filter.mp hfil).2

/-- Witness for C4 on the concrete scenario where `RN` fails between two
succeeding categories: the result's groups are those of `RegistryID` and
`PubMedID`, in request order, each non-empty, and no fatal error occurred. -/
theorem xrefs_group_order_nonempty_witness :
    (∀ g ∈ c4Out.xrefs, g.ids ≠ []) ∧
    ((xrefGroupsOf c4Upstream c4Params.xrefTypes).map XrefGroup.type =
      firstDedup (c4Params.xrefTypes.filter (fun t => fetchTypeXrefs c4Upstream t ≠ []))) ∧
    (c4Out.xrefs.map XrefGroup.type).Sublist (firstDedup c4Params.xrefTypes) ∧
    (∀ g ∈ c4Out.xrefs, fetchTypeXrefs c4Upstream g.type ≠ []) :=
  xrefs_group_order_nonempty c4Upstream c4Params c4Out rfl

/-- Witness for C9: a concrete raw input with omitted page and pageSize
validates, and the contract holds for its parsed form (page 1, pageSize
50). -/
theorem xrefs_input_contract_witness :
    ({ cid := 2244, xrefTypes := [XrefType.RN], page := 1, pageSize := 50 } : XrefsInput).xrefTypes ≠ [] ∧
    ([XrefType.RN] : List XrefType).dedup.length ≤ 7 ∧
    1 ≤ (1 : Nat) ∧ 1 ≤ (50 : Nat) ∧ 1 ≤ (2244 : Nat) ∧
    (({ cid := 2244, xrefTypes := ["RN"] } : RawXrefsInput).page = none → (1 : Nat) = 1) ∧
    (({ cid := 2244, xrefTypes := ["RN"] } : RawXrefsInput).pageSize = none → (50 : Nat) = 50) ∧
    (∀ raw' : RawXrefsInput, raw'.xrefTypes = [] → validateXrefsInput raw' = none) :=
  xrefs_input_contract { cid := 2244, xrefTypes := ["RN"] }
    { cid := 2244, xrefTypes := [XrefType.RN], page := 1, pageSize := 50 } (by decide)

end PubChem
